import Mathlib

/-!
Verification development for the institutional-stock-ranker repository.

The repository is a two-stage trading pipeline:
a daily Strategy engine (src/diamond_v17_main.py and the fortified variant
src/diamond_v17.2_main.py) that scores a stock universe and atomically writes
a JSON signal contract, and an intraday Execution engine
(src/diamond_v16_1_execution_engine.py) that re-validates the contract
candidates against live prices.

This file is a shallow embedding of the decision logic of those scripts.
Python floats are modelled as exact rationals; where the code can hold an
IEEE NaN (the pandas-ta indicator outputs), a dedicated PyFloat type models
the NaN comparison semantics (every comparison with NaN is false, arithmetic
propagates NaN).  Exceptions swallowed by a try/except around the indicator
computation are modelled by an Option/Bool input.  File contents are modelled
as structured values rather than byte strings.
-/

/-- Model of a Python float produced by the pandas-ta indicator library:
either a real value (exact rational) or IEEE NaN. -/
inductive PyFloat where
  | nan : PyFloat
  | val : ℚ → PyFloat
deriving DecidableEq

/-- Python `a < b` on floats: false when either side is NaN. -/
def pyLt : PyFloat → PyFloat → Bool
  | PyFloat.val a, PyFloat.val b => decide (a < b)
  | _, _ => false

/-- Python `a <= b` on floats: false when either side is NaN. -/
def pyLe : PyFloat → PyFloat → Bool
  | PyFloat.val a, PyFloat.val b => decide (a ≤ b)
  | _, _ => false

/-- Python `a > b` on floats. -/
def pyGt (a b : PyFloat) : Bool := pyLt b a

/-- Model of `pd.isna` on a scalar float. -/
def pyIsNan : PyFloat → Bool
  | PyFloat.nan => true
  | PyFloat.val _ => false

/-- Float addition; NaN propagates. -/
def pyAdd : PyFloat → PyFloat → PyFloat
  | PyFloat.val a, PyFloat.val b => PyFloat.val (a + b)
  | _, _ => PyFloat.nan

/-- Float subtraction; NaN propagates. -/
def pySub : PyFloat → PyFloat → PyFloat
  | PyFloat.val a, PyFloat.val b => PyFloat.val (a - b)
  | _, _ => PyFloat.nan

/-- Float multiplication; NaN propagates. -/
def pyMul : PyFloat → PyFloat → PyFloat
  | PyFloat.val a, PyFloat.val b => PyFloat.val (a * b)
  | _, _ => PyFloat.nan

/-- Float division as numpy float64 performs it for `atr / price`; NaN
propagates and no exception is ever raised.  A zero denominator yields an
IEEE infinity (NaN for 0/0) together with a RuntimeWarning; `ta.atr` is an
average of non-negative true ranges, so the numerator is never negative and
a zero denominator gives +inf or NaN.  The pipeline only ever compares this
value against finite thresholds, where +inf and NaN behave identically
(every such comparison is false), so the non-finite outcomes of a zero
denominator are all represented by the `nan` constructor. -/
def pyDivP : PyFloat → PyFloat → PyFloat
  | PyFloat.val a, PyFloat.val b =>
    if b = 0 then PyFloat.nan else PyFloat.val (a / b)
  | _, _ => PyFloat.nan

/-- Python `int(x)` on a (finite) float: truncation toward zero. -/
def pyInt (q : ℚ) : ℤ := if 0 ≤ q then ⌊q⌋ else ⌈q⌉

/-- Round-half-to-even to an integer, the rounding used by Python `round`. -/
def rhalfeven (x : ℚ) : ℤ :=
  if x - ⌊x⌋ < 1/2 then ⌊x⌋
  else if 1/2 < x - ⌊x⌋ then ⌊x⌋ + 1
  else if ⌊x⌋ % 2 = 0 then ⌊x⌋ else ⌊x⌋ + 1

/-- Python `round(x, 1)` on a finite float. -/
def pyRound1 (x : ℚ) : ℚ := rhalfeven (x * 10) / 10

/-- Python `round(x, 1)` lifted to possibly-NaN floats. -/
def pyRound1F : PyFloat → PyFloat
  | PyFloat.nan => PyFloat.nan
  | PyFloat.val q => PyFloat.val (pyRound1 q)

/-! Configuration constants of the Strategy engine
(src/diamond_v17.2_main.py lines 27-37, identical in diamond_v17_main.py). -/

def MAX_FAILURE_RATE : ℚ := 15/100

def FUNDAMENTAL_ABORT : ℚ := 5/100

def QUARANTINE_DAYS : ℤ := 7

def MIN_BARS_REQUIRED : ℕ := 100

def MIN_SECTOR_SIZE : ℕ := 5

def SCORE_THRESHOLD : ℤ := 75

def DISPERSION_THRESHOLD : ℚ := 15

/-- The Execution engine uses its own smaller MIN_BARS_REQUIRED = 50
(src/diamond_v16_1_execution_engine.py line 23). -/
def EXEC_MIN_BARS_REQUIRED : ℕ := 50

/-! QuarantineStore (src/diamond_v17.2_main.py lines 51-80).

The persisted quarantine file maps a symbol to a date string.  An entry is
modelled as `Option ℤ`: `some d` is a date string that `strptime` parses to
day number `d`, `none` is a corrupt date string (the `strptime` call raises
and the bare `except` releases the symbol).  A QWorld carries the in-memory
dictionary `q_data` and the state persisted on disk by `save_quarantine`. -/

abbrev QData := List (String × Option ℤ)

structure QWorld where
  qdata : QData
  disk : QData
deriving DecidableEq

/-- Embedding of `is_quarantined(symbol, q_data)` (v17.2 lines 60-75) at
day number `today`.  Returns the boolean result together with the updated
world: when `days_served >= QUARANTINE_DAYS` the entry is deleted and
`save_quarantine` persists the updated mapping before the function returns. -/
def is_quarantined (today : ℤ) (symbol : String) (w : QWorld) : Bool × QWorld :=
  match w.qdata.lookup symbol with
  | none => (false, w)
  | some none => (false, w)
  | some (some jailDate) =>
    if QUARANTINE_DAYS ≤ today - jailDate then
      let q := w.qdata.filter (fun kv => kv.1 != symbol)
      (false, { qdata := q, disk := q })
    else (true, w)

/-- Embedding of `add_to_quarantine(symbol, reason, q_data)` (v17.2
lines 77-80): overwrite with today's date and persist immediately. -/
def add_to_quarantine (today : ℤ) (symbol : String) (w : QWorld) : QWorld :=
  let q :=
    if w.qdata.any (fun kv => kv.1 == symbol) then
      w.qdata.map (fun kv => if kv.1 == symbol then (kv.1, some today) else kv)
    else w.qdata ++ [(symbol, some today)]
  { qdata := q, disk := q }

/-- One `is_quarantined` check, keeping only the state. -/
def quarantineStep (w : QWorld) (c : ℤ × String) : QWorld :=
  (is_quarantined c.1 c.2 w).2

/-- A sequence of `is_quarantined` checks (day, symbol), with no re-jailing. -/
def runChecks (calls : List (ℤ × String)) (w : QWorld) : QWorld :=
  calls.foldl quarantineStep w

/-! SectorRegimeEngine: `calculate_sector_metrics` (src/diamond_v17_main.py
lines 188-209, identical in v17.2 lines 206-222).

The input is the per-candidate (sector, perf_10d) data: in `main` every
`processed_data` item carries both keys, so the `.get` defaults never fire
and the relevant projection is a list of (sector, perf_10d) pairs.
The dispersion component of the source return value (`stdev` of the
assigned scores, an irrational square root) is used by no claim and is not
embedded; this embedding returns the assigned sector-score mapping, as an
association list in assignment order. -/

/-- Append one performance value to its sector group, preserving Python dict
insertion order (`sector_perf.setdefault(sec, []).append(...)`). -/
def addPerf : List (String × List ℚ) → String → ℚ → List (String × List ℚ)
  | [], sec, p => [(sec, [p])]
  | (k, vs) :: rest, sec, p =>
    if k = sec then (k, vs ++ [p]) :: rest else (k, vs) :: addPerf rest sec p

/-- Group the (sector, perf_10d) pairs by sector. -/
def groupBySector (stock_data : List (String × ℚ)) : List (String × List ℚ) :=
  stock_data.foldl (fun acc sp => addPerf acc sp.1 sp.2) []

/-- Embedding of `statistics.median` on a nonempty list: middle element of
the sorted data for odd length, mean of the two middle elements otherwise. -/
def pymedian (l : List ℚ) : ℚ :=
  let s := l.mergeSort (fun a b => a ≤ b)
  if l.length % 2 = 1 then s.getD (l.length / 2) 0
  else (s.getD (l.length / 2 - 1) 0 + s.getD (l.length / 2) 0) / 2

/-- Floor of the base-2 logarithm of a positive rational: the unique `e`
with `2 ^ e ≤ x < 2 ^ (e + 1)`, computed from the bit lengths of numerator
and denominator. -/
def floorLog2 (x : ℚ) : ℤ :=
  let c : ℤ := (Nat.log 2 x.num.natAbs : ℤ) - (Nat.log 2 x.den : ℤ)
  if (2:ℚ) ^ c ≤ x then c else c - 1

/-- Round a rational to the nearest IEEE-754 binary64 value (53-bit
significand, ties to even), the rounding Python applies after every float
operation.  The scale is chosen so the scaled magnitude lies in
`[2^52, 2^53)`; exponent-range effects (overflow, subnormals below
`2^-1022`) are outside every value this pipeline produces and are not
modelled. -/
def fl (x : ℚ) : ℚ :=
  if x = 0 then 0
  else
    ((if x < 0 then -1 else 1) : ℚ)
      * (rhalfeven (|x| / 2 ^ (floorLog2 |x| - 52)) : ℚ)
      * 2 ^ (floorLog2 |x| - 52)

/-- The score assigned to rank index `i` of `n` ranked sectors:
`int((1 - (i / max(len(sorted_secs), 1))) * 100)`, evaluated as Python
does in double precision — the int/int true division, the subtraction and
the multiplication are each rounded to the nearest binary64 value — and
then truncated by `int`. -/
def sectorScoreAt (n i : ℕ) : ℤ :=
  pyInt (fl (fl (1 - fl ((i : ℚ) / (max n 1 : ℕ))) * 100))

/-- Embedding of `calculate_sector_metrics` (scores component): group by
sector, take the median 10-day performance of each sector with at least
MIN_SECTOR_SIZE members, rank descending by median (stable), and assign each
rank its score. -/
def calculate_sector_metrics (stock_data : List (String × ℚ)) : List (String × ℤ) :=
  let medians := (groupBySector stock_data).filterMap
    (fun kv => if MIN_SECTOR_SIZE ≤ kv.2.length then some (kv.1, pymedian kv.2) else none)
  if medians.isEmpty then []
  else
    let sorted_secs := medians.mergeSort (fun a b => b.2 ≤ a.2)
    sorted_secs.enum.map (fun iv => (iv.2.1, sectorScoreAt sorted_secs.length iv.1))

/-! ScoringEngine: `calculate_score` (src/diamond_v17_main.py lines 211-256,
identical in v17.2 lines 224-269).

The indicator values (`ta.rsi`, `ta.ema`, `ta.atr` applied to the price
series) are external library outputs per the design scope; they enter the
embedding as a record of PyFloat values.  The whole indicator block sits in
a `try`, whose only failure mode is an exception from the library calls
(modelled by passing `none`); the `volatility = atr / price` line never
raises, because `atr` is a numpy float64 and numpy float division by a zero
price produces a non-finite value with a RuntimeWarning, not a
ZeroDivisionError (see `pyDivP`).  `close10` is `close.iloc[-10]`; the
division in the alpha term sits outside the `try`, and `close10 = 0` would
crash the run, which no claim exercises, so plain rational division is
used there. -/

structure Indicators where
  rsi : PyFloat
  ema20 : PyFloat
  ema50 : PyFloat
  ema200 : PyFloat
  atr : PyFloat
deriving DecidableEq

/-- Cached fundamentals of one symbol; `none` fields model missing dict
keys, read through `fund.get(key, default)`. -/
structure Fundamentals where
  pe : Option ℚ
  de : Option ℚ
  sector : Option String
deriving DecidableEq

/-- A scored candidate as constructed at the end of `calculate_score`.
The target and stop-loss keep the possibly-NaN ATR arithmetic. -/
structure Candidate where
  symbol : String
  score : ℤ
  price : ℚ
  tgt : PyFloat
  sl : PyFloat
  del_pct : ℚ
  sector : String
  perf_10d : ℚ
deriving DecidableEq

/-- Technical sub-score (weight 25%), source line
`if price > ema20 > ema50 > ema200: t = 100 if 55 <= rsi <= 70 else 90`
`elif price > ema50: t = 60`  `else: t = 20`.  The Python chained comparison
means price above ema20 AND ema20 above ema50 AND ema50 above ema200;
a NaN anywhere makes every comparison false. -/
def technicalScore (price : ℚ) (ema20 ema50 ema200 rsi : PyFloat) : ℕ :=
  if pyGt (PyFloat.val price) ema20 && pyGt ema20 ema50 && pyGt ema50 ema200 then
    if pyLe (PyFloat.val 55) rsi && pyLe rsi (PyFloat.val 70) then 100 else 90
  else if pyGt (PyFloat.val price) ema50 then 60
  else 20

/-- Delivery sub-score (weight 20%): `min(100, int((delv / 60) * 100))`. -/
def deliveryScore (delv : ℚ) : ℤ := min 100 (pyInt (delv / 60 * 100))

/-- Alpha sub-score (weight 15%) from the relative 10-day return in
basis points. -/
def alphaScore (alpha_bps : ℚ) : ℕ :=
  if 300 < alpha_bps then 100 else if 100 < alpha_bps then 80
  else if 0 < alpha_bps then 60 else 30

/-- Fundamental (P/E) sub-score (weight 10%). -/
def fundamentalScore (pe : ℚ) : ℕ :=
  if 0 < pe ∧ pe < 30 then 100 else if pe < 60 then 70 else 40

/-- Solvency (debt/equity) sub-score (weight 10%). -/
def solvencyScore (de : ℚ) : ℕ :=
  if de ≤ 50 then 100 else if de ≤ 150 then 70 else 30

/-- Volatility sub-score (weight 5%) from ATR/price; NaN volatility falls
through both comparisons to 40. -/
def betaScore (volatility : PyFloat) : ℕ :=
  if pyLt volatility (PyFloat.val (2/100)) then 100
  else if pyLt volatility (PyFloat.val (4/100)) then 70 else 40

/-- The fixed-weight blend
`(t*0.25) + (d*0.20) + (s*0.15) + (a*0.15) + (f*0.10) + (solv*0.10) + (b*0.05)`. -/
def compositeBlend (t : ℕ) (d s : ℤ) (a f solv b : ℕ) : ℚ :=
  (t : ℚ) * (25/100) + (d : ℚ) * (20/100) + (s : ℚ) * (15/100) + (a : ℚ) * (15/100)
    + (f : ℚ) * (10/100) + (solv : ℚ) * (10/100) + (b : ℚ) * (5/100)

/-- Embedding of `calculate_score(df, symbol, avg_delivery, sector_map,
nifty_perf, fund)`.  `nBars` is `len(df)`, `price` is the last close,
`close10` the close ten bars back, `ind` the indicator block (`none` when a
library call in the `try` raises), `avg_delivery` the delivery-percentage
map, `sector_map` the sector-score map from `calculate_sector_metrics`. -/
def calculate_score (symbol : String) (nBars : ℕ) (price close10 : ℚ)
    (ind : Option Indicators) (avg_delivery : List (String × ℚ))
    (sector_map : List (String × ℤ)) (nifty_perf : ℚ)
    (fund : Fundamentals) : Option Candidate :=
  if nBars < MIN_BARS_REQUIRED then none else
  match ind with
  | none => none
  | some i =>
    let volatility := pyDivP i.atr (PyFloat.val price)
    let t := technicalScore price i.ema20 i.ema50 i.ema200 i.rsi
    let delv := (avg_delivery.lookup symbol).getD 30
    let d := deliveryScore delv
    let sec := fund.sector.getD "Unknown"
    let s := (sector_map.lookup sec).getD 50
    let alpha_bps := ((price - close10) / close10 - nifty_perf) * 10000
    let a := alphaScore alpha_bps
    let fsc := fundamentalScore (fund.pe.getD 0)
    let solv := solvencyScore (fund.de.getD 0)
    let b := betaScore volatility
    let final := compositeBlend t d s a fsc solv b
    some {
      symbol := symbol
      score := pyInt final
      price := price
      tgt := pyRound1F (pyAdd (PyFloat.val price) (pyMul (PyFloat.val (35/10)) i.atr))
      sl := pyRound1F (pySub (PyFloat.val price) (pyMul (PyFloat.val 2) i.atr))
      del_pct := pyRound1 delv
      sector := sec
      perf_10d := (price - close10) / close10 }

/-! ContractWriter: `write_json_contract` (src/diamond_v17_main.py
lines 78-99, identical in v17.2 lines 274-289) and the contract payload. -/

/-- Contract metadata written by the v17.2 `main`. -/
structure Meta where
  trend : String
  dispersion : ℚ
  kill_switch : Bool
  protocol : String
deriving DecidableEq

/-- The serialized signal contract. -/
structure Contract where
  meta : Meta
  count : ℕ
  univ : List Candidate
deriving DecidableEq

/-- The dictionary built at the top of `write_json_contract`:
`count` is `len(candidates)`, `universe` the candidate list as passed. -/
def build_contract (metadata : Meta) (candidates : List Candidate) : Contract :=
  { meta := metadata, count := candidates.length, univ := candidates }

/-- The three file-system operations the body of `write_json_contract`
performs, in order: write the temp file, `os.remove(SIGNAL_FILE)` (only when
the canonical file exists), `os.rename(temp_file, SIGNAL_FILE)`. -/
inductive WriteOp where
  | writeTemp (c : Contract)
  | removeCanonical
  | renameTempToCanonical
deriving DecidableEq

/-- File-system state: contents of the canonical contract path and of the
temp path (`none` is an absent file). -/
structure FS where
  canonical : Option Contract
  temp : Option Contract
deriving DecidableEq

def applyOp (fs : FS) (op : WriteOp) : FS :=
  match op with
  | WriteOp.writeTemp c => { fs with temp := some c }
  | WriteOp.removeCanonical => { fs with canonical := none }
  | WriteOp.renameTempToCanonical => { canonical := fs.temp, temp := none }

/-- The operation sequence of one `write_json_contract` call:
write temp, then remove the canonical file if it exists, then rename. -/
def contractWriteOps (c : Contract) (fs : FS) : List WriteOp :=
  [WriteOp.writeTemp c]
    ++ (if fs.canonical.isSome then [WriteOp.removeCanonical] else [])
    ++ [WriteOp.renameTempToCanonical]

/-- A `write_json_contract` call that runs to completion. -/
def write_json_contract (metadata : Meta) (candidates : List Candidate) (fs : FS) : FS :=
  (contractWriteOps (build_contract metadata candidates) fs).foldl applyOp fs

/-- A `write_json_contract` call whose process is killed after the first
`k` file-system operations completed. -/
def write_json_contract_killed (metadata : Meta) (candidates : List Candidate)
    (fs : FS) (k : ℕ) : FS :=
  ((contractWriteOps (build_contract metadata candidates) fs).take k).foldl applyOp fs

/-- A `write_json_contract` call in which the file-system operation after
the first `k` raises an I/O error: the `except Exception` handler prints and
returns normally, so the caller observes no exception (second component
false = nothing surfaced). -/
def write_json_contract_ioerror (metadata : Meta) (candidates : List Candidate)
    (fs : FS) (k : ℕ) : FS × Bool :=
  (write_json_contract_killed metadata candidates fs k, false)

/-- The sort `candidates.sort(key=lambda x: x["score"], reverse=True)` in
`main` (v17.2 line 416): stable descending sort by score. -/
def sortCandidatesDesc (candidates : List Candidate) : List Candidate :=
  candidates.mergeSort (fun a b => b.score ≤ a.score)

/-- The contract payload a completed Strategy run emits (v17.2 lines
416-423): candidates sorted descending by score, truncated to the top 20,
passed through `write_json_contract`. -/
def strategy_emit (metadata : Meta) (candidates : List Candidate) : Contract :=
  build_contract metadata ((sortCandidatesDesc candidates).take 20)

/-! FailureCircuitBreaker: the decision block of the v17.2 `main`
(lines 365-379) plus which later writes it allows (lines 397-423). -/

/-- What one Strategy run does after the bulk fetch: whether it aborts,
how many alert messages it sends, whether the fundamentals cache is
refreshed, and whether a contract is written. -/
structure RunPlan where
  aborted : Bool
  alerts : ℕ
  fundamentals_refreshed : Bool
  contract_written : Bool
deriving DecidableEq

/-- Embedding of the circuit-breaker control flow: `fail_rate = failures /
len(symbols)`; above MAX_FAILURE_RATE send one alert and return before any
write; otherwise continue, refreshing fundamentals only when the rate is
below FUNDAMENTAL_ABORT, and reach the contract write at the end. -/
def strategyRunPlan (attempted failures : ℕ) : RunPlan :=
  let fail_rate : ℚ := (failures : ℚ) / (attempted : ℚ)
  if MAX_FAILURE_RATE < fail_rate then
    { aborted := true, alerts := 1, fundamentals_refreshed := false, contract_written := false }
  else
    { aborted := false, alerts := 0,
      fundamentals_refreshed := decide (fail_rate < FUNDAMENTAL_ABORT),
      contract_written := true }

/-! Execution engine: `load_signal`, `refine_trade` and the per-candidate
loop of `main` (src/diamond_v16_1_execution_engine.py). -/

/-- A universe entry of the stored contract JSON: a dictionary whose keys
may be missing.  `load_signal` keeps only entries carrying both "symbol"
and "score". -/
structure UEntry where
  symbol : Option String
  score : Option ℤ
  sector : Option String
  del_pct : Option ℚ
deriving DecidableEq

/-- The schema check `required_keys.issubset(u.keys())` with
`required_keys = \x7b"symbol", "score"\x7d`. -/
def hasRequiredKeys (u : UEntry) : Bool := u.symbol.isSome && u.score.isSome

/-- The sort key `x["score"]`; every entry actually sorted has the key. -/
def uscore (u : UEntry) : ℤ := u.score.getD 0

/-- Contract metadata as read back by the Execution engine. -/
structure RawMeta where
  protocol : Option String
  recommendation : Option String
  kill_switch : Bool
deriving DecidableEq

structure RawContract where
  meta : RawMeta
  univ : List UEntry
deriving DecidableEq

/-- State of the signal file: absent, present but failing to parse (or of a
shape that raises inside the `try`), or parsed to a contract. -/
inductive SignalFile where
  | missing
  | corrupt
  | parsed (c : RawContract)

/-- What `load_signal` hands to `main` on success; `none` models the
`return None, None` paths. -/
structure LoadedSignal where
  protocol : String
  kill_switch : Bool
  univ : List UEntry
deriving DecidableEq

/-- Python `a or b` for an optional string left operand: the right operand
is taken when the left is absent or falsy (empty). -/
def pyStrOr (a : Option String) (b : String) : String :=
  match a with
  | some s => if s = "" then b else s
  | none => b

/-- The protocol fix-up
`meta.get("protocol") or meta.get("recommendation", "NORMAL_SIZE_100")`. -/
def resolveProtocol (m : RawMeta) : String :=
  pyStrOr m.protocol (m.recommendation.getD "NORMAL_SIZE_100")

/-- Embedding of `load_signal` (lines 108-137): missing or unparsable file
yields the (None, None) result; otherwise entries lacking a required key are
dropped, the survivors are sorted descending by score, and the metadata gets
the resolved protocol. -/
def load_signal : SignalFile → Option LoadedSignal
  | SignalFile.missing => none
  | SignalFile.corrupt => none
  | SignalFile.parsed c =>
    let valid_universe := c.univ.filter hasRequiredKeys
    some {
      protocol := resolveProtocol c.meta
      kill_switch := c.meta.kill_switch
      univ := valid_universe.mergeSort (fun a b => uscore b ≤ uscore a) }

/-- The gate `meta, universe = load_signal()` / `if not meta or not
universe: return` in `main` (lines 176-177).  After the protocol fix-up the
meta dictionary is never empty, so the gate reduces to the load having
succeeded with a nonempty universe. -/
def executionProceeds (r : Option LoadedSignal) : Bool :=
  match r with
  | none => false
  | some s => !s.univ.isEmpty

/-- Live market data for one symbol at the Execution stage: `nBars` is
`len(df)` after `dropna`, `close` the live price `close.iloc[-1]`,
`indFails` whether the `ta.ema`/`ta.atr` block raises, then the two
indicator outputs. -/
structure LiveData where
  nBars : ℕ
  close : ℚ
  indFails : Bool
  ema50 : PyFloat
  atr : PyFloat
deriving DecidableEq

/-- Embedding of `refine_trade(df)` (lines 142-161): reject on few bars, on
an indicator exception, on NaN or non-positive ATR, and on a live price
below the 50-period EMA; otherwise recompute stop-loss and target from the
live price and ATR. -/
def refine_trade (d : LiveData) : Option (ℚ × ℚ × ℚ) :=
  if d.nBars < EXEC_MIN_BARS_REQUIRED then none
  else if d.indFails then none
  else match d.atr with
  | PyFloat.nan => none
  | PyFloat.val a =>
    if a ≤ 0 then none
    else if pyLt (PyFloat.val d.close) d.ema50 then none
    else some (d.close, pyRound1 (d.close - 2 * a), pyRound1 (d.close + 35/10 * a))

/-- A refined, executable setup as assembled in the `main` loop. -/
structure ExecSetup where
  symbol : String
  score : ℤ
  price : ℚ
  sl : ℚ
  tgt : ℚ
  sector : String
  protocol : String
deriving DecidableEq

/-- A row appended to the persistent sheet. -/
structure SheetRow where
  date : String
  symbol : String
  score : ℤ
  price : ℚ
  sl : ℚ
  tgt : ℚ
  sector : String
  del_pct : ℚ
  protocol : String
  run_id : String
deriving DecidableEq

/-- The body of the per-candidate loop of the Execution `main` (lines
205-246) for one universe entry: `none` live data models a symbol missing
from the bulk download or an empty frame (the loop continues); otherwise
the entry survives exactly when `refine_trade` accepts it, producing the
notification setup and the sheet row.  Entries reaching this loop come from
`load_signal`, so the "symbol" and "score" keys are always present; the
dictionary reads are modelled with their defaults. -/
def processEntry (today run_id protocol : String) (u : UEntry)
    (d : Option LiveData) : Option (ExecSetup × SheetRow) :=
  match d with
  | none => none
  | some dd =>
    match refine_trade dd with
    | none => none
    | some (live_price, sl, tgt) =>
      let sym := u.symbol.getD ""
      let sec := u.sector.getD "Unknown"
      some ({ symbol := sym, score := uscore u, price := live_price, sl := sl,
              tgt := tgt, sector := sec, protocol := protocol },
            { date := today, symbol := sym, score := uscore u, price := live_price,
              sl := sl, tgt := tgt, sector := sec, del_pct := u.del_pct.getD 0,
              protocol := protocol, run_id := run_id })

/-- The full loop over the universe paired with each symbol's live data:
the executable setups and sheet rows, in universe order. -/
def buildOutputs (today run_id protocol : String)
    (inputs : List (UEntry × Option LiveData)) : List (ExecSetup × SheetRow) :=
  inputs.filterMap (fun p => processEntry today run_id protocol p.1 p.2)

/-! Helper lemmas shared by several claim proofs. -/

theorem pyInt_eq_floor (q : ℚ) (h : 0 ≤ q) : pyInt q = ⌊q⌋ := by
  simp [pyInt, h]

theorem pyInt_nonneg (q : ℚ) (h : 0 ≤ q) : 0 ≤ pyInt q := by
  rw [pyInt_eq_floor q h]
  exact Int.floor_nonneg.mpr h

theorem pyInt_le_of_le (q : ℚ) (n : ℤ) (h0 : 0 ≤ q) (h : q ≤ (n : ℚ)) : pyInt q ≤ n := by
  rw [pyInt_eq_floor q h0]
  calc ⌊q⌋ ≤ ⌊(n:ℚ)⌋ := Int.floor_le_floor h
  _ = n := Int.floor_intCast n

/-- Claim C1 (code_bug evidence).  The source of both Strategy variants
performs `os.remove(SIGNAL_FILE)` before `os.rename`, despite the docstring
"Writes a deterministic JSON file atomically (Crash-Safe)".  First conjunct:
a process killed after the remove but before the rename (two operations
done) leaves no contract at the canonical path, so the previous contract is
not left intact.  Second conjunct: any I/O error inside the body is caught
by `except Exception` and only printed, so the caller never sees an error.
Third conjunct (sanity): an uninterrupted call does install the new
contract. -/
theorem c1_contract_write_crash_window_and_swallowed_errors :
    (write_json_contract_killed
        { trend := "BULL", dispersion := 20, kill_switch := false,
          protocol := "NORMAL_SIZE_100" }
        []
        { canonical := some (build_contract
            { trend := "BEAR", dispersion := 10, kill_switch := true,
              protocol := "REDUCE_SIZE_50" } []),
          temp := none }
        2).canonical = none
    ∧ (∀ metadata candidates fs k,
        (write_json_contract_ioerror metadata candidates fs k).2 = false)
    ∧ (∀ metadata candidates fs,
        (write_json_contract metadata candidates fs).canonical
          = some (build_contract metadata candidates)) := by
  refine ⟨rfl, fun _ _ _ _ => rfl, fun metadata candidates fs => ?_⟩
  rcases fs with ⟨c, t⟩
  cases c <;> simp [write_json_contract, contractWriteOps, applyOp]

/-- Claim C4: the failure circuit breaker of the v17.2 `main`.  With
`attempted > 0` and `fail_rate = failures / attempted`: a rate above
MAX_FAILURE_RATE = 0.15 (equivalently `3 * attempted < 20 * failures`)
aborts the run after exactly one alert with no contract written; a rate
below FUNDAMENTAL_ABORT = 0.05 (equivalently `20 * failures < attempted`)
proceeds with a fundamentals refresh; a rate between the thresholds
proceeds to the contract write but skips the fundamentals refresh. -/
theorem c4_circuit_breaker_three_way (attempted failures : ℕ) (h : 0 < attempted) :
    (3 * attempted < 20 * failures →
      strategyRunPlan attempted failures
        = { aborted := true, alerts := 1, fundamentals_refreshed := false,
            contract_written := false })
    ∧ (20 * failures < attempted →
      strategyRunPlan attempted failures
        = { aborted := false, alerts := 0, fundamentals_refreshed := true,
            contract_written := true })
    ∧ (attempted ≤ 20 * failures → 20 * failures ≤ 3 * attempted →
      strategyRunPlan attempted failures
        = { aborted := false, alerts := 0, fundamentals_refreshed := false,
            contract_written := true }) := by
  have ha : (0:ℚ) < (attempted:ℚ) := by exact_mod_cast h
  have hmax : (MAX_FAILURE_RATE < (failures:ℚ)/(attempted:ℚ))
      ↔ 3 * attempted < 20 * failures := by
    rw [MAX_FAILURE_RATE, lt_div_iff₀ ha]
    constructor
    · intro hq
      exact_mod_cast (by linarith : (3:ℚ) * attempted < 20 * failures)
    · intro hn
      have hc : (3:ℚ) * attempted < 20 * failures := by exact_mod_cast hn
      linarith
  have habort : ((failures:ℚ)/(attempted:ℚ) < FUNDAMENTAL_ABORT)
      ↔ 20 * failures < attempted := by
    rw [FUNDAMENTAL_ABORT, div_lt_iff₀ ha]
    constructor
    · intro hq
      exact_mod_cast (by linarith : (20:ℚ) * failures < attempted)
    · intro hn
      have hc : (20:ℚ) * failures < (attempted:ℚ) := by exact_mod_cast hn
      linarith
  refine ⟨fun hcond => ?_, fun hcond => ?_, fun hc1 hc2 => ?_⟩
  · simp only [strategyRunPlan]
    rw [if_pos (hmax.mpr hcond)]
  · have hnmax : ¬ (MAX_FAILURE_RATE < (failures:ℚ)/(attempted:ℚ)) := by
      intro hc
      have := hmax.mp hc
      omega
    simp only [strategyRunPlan]
    rw [if_neg hnmax, decide_eq_true (habort.mpr hcond)]
  · have hnmax : ¬ (MAX_FAILURE_RATE < (failures:ℚ)/(attempted:ℚ)) := by
      intro hc
      have := hmax.mp hc
      omega
    have hnab : ¬ ((failures:ℚ)/(attempted:ℚ) < FUNDAMENTAL_ABORT) := by
      intro hc
      have := habort.mp hc
      omega
    simp only [strategyRunPlan]
    rw [if_neg hnmax, decide_eq_false hnab]

/-- Witness for C4 at the spec's concrete inputs: attempted = 100 with 16,
4 and 10 failures. -/
theorem c4_circuit_breaker_three_way_witness :
    strategyRunPlan 100 16
      = { aborted := true, alerts := 1, fundamentals_refreshed := false,
          contract_written := false }
    ∧ strategyRunPlan 100 4
      = { aborted := false, alerts := 0, fundamentals_refreshed := true,
          contract_written := true }
    ∧ strategyRunPlan 100 10
      = { aborted := false, alerts := 0, fundamentals_refreshed := false,
          contract_written := true } :=
  ⟨(c4_circuit_breaker_three_way 100 16 (by norm_num)).1 (by norm_num),
   (c4_circuit_breaker_three_way 100 4 (by norm_num)).2.1 (by norm_num),
   (c4_circuit_breaker_three_way 100 10 (by norm_num)).2.2 (by norm_num) (by norm_num)⟩

theorem lookup_filter_out (symbol : String) (l : QData) :
    (l.filter (fun kv => kv.1 != symbol)).lookup symbol = none := by
  rw [List.lookup_eq_none_iff]
  intro kv hmem
  have hne := (List.mem_filter.mp hmem).2
  simp only [bne_iff_ne, ne_eq] at hne ⊢
  exact fun he => hne (by rw [he])

theorem lookup_none_of_filter (symbol : String) (p : String × Option ℤ → Bool)
    (l : QData) (h : l.lookup symbol = none) : (l.filter p).lookup symbol = none := by
  rw [List.lookup_eq_none_iff] at h ⊢
  intro kv hmem
  exact h kv (List.mem_filter.mp hmem).1

theorem is_quarantined_absent (today : ℤ) (symbol : String) (w : QWorld)
    (h : w.qdata.lookup symbol = none) :
    is_quarantined today symbol w = (false, w) := by
  unfold is_quarantined
  rw [h]

theorem quarantineStep_preserves_absent (symbol : String) (w : QWorld)
    (c : ℤ × String) (h : w.qdata.lookup symbol = none) :
    (quarantineStep w c).qdata.lookup symbol = none := by
  unfold quarantineStep is_quarantined
  cases hl : w.qdata.lookup c.2 with
  | none => exact h
  | some o =>
    cases o with
    | none => exact h
    | some jailDate =>
      by_cases hs : QUARANTINE_DAYS ≤ c.1 - jailDate
      · simp only [hs, if_true]
        exact lookup_none_of_filter symbol _ w.qdata h
      · simp only [hs, if_false]
        exact h

theorem runChecks_preserves_absent (symbol : String) (calls : List (ℤ × String))
    (w : QWorld) (h : w.qdata.lookup symbol = none) :
    (runChecks calls w).qdata.lookup symbol = none := by
  induction calls generalizing w with
  | nil => exact h
  | cons c rest ih =>
    rw [runChecks, List.foldl]
    exact ih (quarantineStep w c) (quarantineStep_preserves_absent symbol w c h)

/-- Claim C7: quarantine parole is immediate, durable and monotonic.  For a
symbol whose stored jail date parses and has served at least
QUARANTINE_DAYS: `is_quarantined` returns false, the entry is gone from the
in-memory mapping, the removal is persisted (disk equals the new mapping)
before the call returns, and every later `is_quarantined` call for that
symbol — across any sequence of further checks of any symbols, absent
re-jailing — also returns false. -/
theorem c7_quarantine_parole (today jailDate : ℤ) (symbol : String) (w : QWorld)
    (hmem : w.qdata.lookup symbol = some (some jailDate))
    (hserved : QUARANTINE_DAYS ≤ today - jailDate) :
    (is_quarantined today symbol w).1 = false
    ∧ (is_quarantined today symbol w).2.qdata.lookup symbol = none
    ∧ (is_quarantined today symbol w).2.disk = (is_quarantined today symbol w).2.qdata
    ∧ ∀ (calls : List (ℤ × String)) (later : ℤ),
        (is_quarantined later symbol (runChecks calls (is_quarantined today symbol w).2)).1
          = false := by
  have hrun : is_quarantined today symbol w
      = (false, { qdata := w.qdata.filter (fun kv => kv.1 != symbol),
                  disk := w.qdata.filter (fun kv => kv.1 != symbol) }) := by
    unfold is_quarantined
    rw [hmem]
    simp [hserved]
  rw [hrun]
  refine ⟨rfl, lookup_filter_out symbol w.qdata, rfl, fun calls later => ?_⟩
  have habs : (runChecks calls
      { qdata := w.qdata.filter (fun kv => kv.1 != symbol),
        disk := w.qdata.filter (fun kv => kv.1 != symbol) }).qdata.lookup symbol = none :=
    runChecks_preserves_absent symbol calls _ (lookup_filter_out symbol w.qdata)
  rw [is_quarantined_absent later symbol _ habs]

/-- Witness for C7: a symbol jailed on day 0, checked on day 7, then again
later after unrelated checks. -/
theorem c7_quarantine_parole_witness :
    QUARANTINE_DAYS ≤ (7:ℤ) - 0
    ∧ (is_quarantined 7 "BADCO" ⟨[("BADCO", some 0)], [("BADCO", some 0)]⟩).1 = false
    ∧ (is_quarantined 20 "BADCO" (runChecks [(9, "BADCO"), (10, "OTHERCO")]
        (is_quarantined 7 "BADCO" ⟨[("BADCO", some 0)], [("BADCO", some 0)]⟩).2)).1 = false :=
  ⟨by norm_num [QUARANTINE_DAYS],
   (c7_quarantine_parole 7 0 "BADCO" ⟨[("BADCO", some 0)], [("BADCO", some 0)]⟩
      (by simp [List.lookup]) (by norm_num [QUARANTINE_DAYS])).1,
   (c7_quarantine_parole 7 0 "BADCO" ⟨[("BADCO", some 0)], [("BADCO", some 0)]⟩
      (by simp [List.lookup]) (by norm_num [QUARANTINE_DAYS])).2.2.2
      [(9, "OTHERCO"), (10, "OTHERCO")] 20⟩

theorem sorted_mergeSort_keyDesc {α : Type} (key : α → ℤ) (l : List α) :
    List.Sorted (fun a b => key b ≤ key a)
      (l.mergeSort (fun a b => decide (key b ≤ key a))) := by
  have hp := @List.sorted_mergeSort α (fun a b => decide (key b ≤ key a))
    (fun a b c h1 h2 =>
      decide_eq_true (le_trans (of_decide_eq_true h2) (of_decide_eq_true h1)))
    (fun a b => by rcases le_total (key b) (key a) with hab | hab <;> simp [hab]) l
  exact List.Pairwise.imp (fun h => of_decide_eq_true h) hp

/-- Claim C8: in the contract a completed v17.2 Strategy run emits, the
universe is sorted descending by score, never longer than the cap of 20,
and the count field equals the universe length. -/
theorem c8_contract_universe_invariants (metadata : Meta) (candidates : List Candidate) :
    List.Sorted (fun a b : Candidate => b.score ≤ a.score) (strategy_emit metadata candidates).univ
    ∧ (strategy_emit metadata candidates).univ.length ≤ 20
    ∧ (strategy_emit metadata candidates).count
        = (strategy_emit metadata candidates).univ.length := by
  have hsorted : List.Sorted (fun a b : Candidate => b.score ≤ a.score)
      (sortCandidatesDesc candidates) :=
    sorted_mergeSort_keyDesc (fun x : Candidate => x.score) candidates
  refine ⟨?_, ?_, rfl⟩
  · exact List.Pairwise.sublist (List.take_sublist 20 _) hsorted
  · have := List.length_take 20 (sortCandidatesDesc candidates)
    simp only [strategy_emit, build_contract, this]
    omega

/-- Claim C10: totality of the Execution contract loader.  A missing or
unparsable signal file yields the (None, None) result, on which the run
ends with no outputs; on a parsed contract every universe entry lacking a
"symbol" or "score" key is dropped, the survivors are returned re-sorted
descending by score (a permutation of the key-filtered universe in which
every entry carries both keys), and a missing "protocol" is defaulted from
the "recommendation" field, or to "NORMAL_SIZE_100" when that is missing
too. -/
theorem c10_load_signal_total :
    load_signal SignalFile.missing = none
    ∧ load_signal SignalFile.corrupt = none
    ∧ executionProceeds none = false
    ∧ (∀ c : RawContract, ∃ u,
        load_signal (SignalFile.parsed c)
          = some { protocol := resolveProtocol c.meta,
                   kill_switch := c.meta.kill_switch, univ := u }
        ∧ u.Perm (c.univ.filter hasRequiredKeys)
        ∧ List.Sorted (fun a b => uscore b ≤ uscore a) u
        ∧ ∀ e ∈ u, hasRequiredKeys e = true)
    ∧ (∀ r ks, resolveProtocol
        { protocol := none, recommendation := some r, kill_switch := ks } = r)
    ∧ (∀ ks, resolveProtocol
        { protocol := none, recommendation := none, kill_switch := ks }
          = "NORMAL_SIZE_100") := by
  refine ⟨rfl, rfl, rfl, fun c => ?_, fun r ks => rfl, fun ks => rfl⟩
  refine ⟨(c.univ.filter hasRequiredKeys).mergeSort
      (fun a b => decide (uscore b ≤ uscore a)), rfl,
    List.mergeSort_perm _ _, sorted_mergeSort_keyDesc uscore _, fun e he => ?_⟩
  have hmem : e ∈ c.univ.filter hasRequiredKeys :=
    (List.mergeSort_perm (c.univ.filter hasRequiredKeys) _).mem_iff.mp he
  exact (List.mem_filter.mp hmem).2

/-- Claim C2 counterexample.  With price 100 above all three moving
averages (ema20 = 90, ema50 = 95, ema200 = 80) and RSI 60 inside [55,70],
the claim demands a technical sub-score of 100 (at least 90 or 100
regardless of how the averages are ordered among themselves), but the
source's chained comparison `price > ema20 > ema50 > ema200` fails at
`ema20 > ema50`, falls into the `price > ema50` branch, and yields 60. -/
theorem c2_technical_above_all_mas_counterexample :
    (90:ℚ) < 100 ∧ (95:ℚ) < 100 ∧ (80:ℚ) < 100 ∧ (55:ℚ) ≤ 60 ∧ (60:ℚ) ≤ 70
    ∧ technicalScore 100 (PyFloat.val 90) (PyFloat.val 95) (PyFloat.val 80)
        (PyFloat.val 60) = 60 := by
  norm_num [technicalScore, pyGt, pyLt, pyLe]

/-- Claim C2 as amended: the 100/90 branches require the stacked chain
price above ema20, ema20 above ema50, ema50 above ema200 (not merely price
above all three); when the chain fails the sub-score is 60 whenever price
is above the 50-period average (even if price is above all three averages)
and 20 otherwise. -/
theorem c2_technical_score_cases (price e20 e50 e200 rsi : ℚ) :
    (e20 < price → e50 < e20 → e200 < e50 → 55 ≤ rsi → rsi ≤ 70 →
      technicalScore price (PyFloat.val e20) (PyFloat.val e50) (PyFloat.val e200)
        (PyFloat.val rsi) = 100)
    ∧ (e20 < price → e50 < e20 → e200 < e50 → (rsi < 55 ∨ 70 < rsi) →
      technicalScore price (PyFloat.val e20) (PyFloat.val e50) (PyFloat.val e200)
        (PyFloat.val rsi) = 90)
    ∧ (¬ (e20 < price ∧ e50 < e20 ∧ e200 < e50) → e50 < price →
      technicalScore price (PyFloat.val e20) (PyFloat.val e50) (PyFloat.val e200)
        (PyFloat.val rsi) = 60)
    ∧ (¬ (e20 < price ∧ e50 < e20 ∧ e200 < e50) → ¬ e50 < price →
      technicalScore price (PyFloat.val e20) (PyFloat.val e50) (PyFloat.val e200)
        (PyFloat.val rsi) = 20) := by
  simp only [technicalScore, pyGt, pyLt, pyLe, Bool.and_eq_true, decide_eq_true_eq]
  refine ⟨fun h1 h2 h3 h4 h5 => ?_, fun h1 h2 h3 h4 => ?_,
    fun hc h => ?_, fun hc h => ?_⟩
  · rw [if_pos ⟨⟨h1, h2⟩, h3⟩, if_pos ⟨h4, h5⟩]
  · rw [if_pos ⟨⟨h1, h2⟩, h3⟩, if_neg ?_]
    intro hband
    rcases h4 with h4 | h4
    · linarith [hband.1]
    · linarith [hband.2]
  · rw [if_neg (fun hx => hc ⟨hx.1.1, hx.1.2, hx.2⟩), if_pos h]
  · rw [if_neg (fun hx => hc ⟨hx.1.1, hx.1.2, hx.2⟩), if_neg h]

/-- Witness for C2 (amended): a properly stacked chain with RSI in band
scores 100. -/
theorem c2_technical_score_cases_witness :
    technicalScore 100 (PyFloat.val 90) (PyFloat.val 80) (PyFloat.val 70)
      (PyFloat.val 60) = 100 :=
  (c2_technical_score_cases 100 90 80 70 60).1 (by norm_num) (by norm_num)
    (by norm_num) (by norm_num) (by norm_num)

/-- Claim C5 counterexample.  At the Strategy stage a NaN ATR (first
conjunct) or a non-positive ATR of 0 (second conjunct) does NOT make
`calculate_score` return None: a candidate is still produced (its target
and stop-loss carrying the NaN in the first case), because the NaN and
non-positive ATR guard exists only in the Execution engine's
`refine_trade`, not in `calculate_score`.  Third conjunct: a zero last
price does not make it return None either — the numpy float division
`atr / price` yields a non-finite volatility with a RuntimeWarning instead
of raising, so the `except` never fires. -/
theorem c5_nan_atr_still_scored_counterexample :
    (calculate_score "TCS" 250 100 90
      (some { rsi := PyFloat.val 60, ema20 := PyFloat.val 90,
              ema50 := PyFloat.val 80, ema200 := PyFloat.val 70,
              atr := PyFloat.nan })
      [] [] 0 { pe := some 20, de := some 40, sector := some "IT" }).isSome = true
    ∧ (calculate_score "TCS" 250 100 90
      (some { rsi := PyFloat.val 60, ema20 := PyFloat.val 90,
              ema50 := PyFloat.val 80, ema200 := PyFloat.val 70,
              atr := PyFloat.val 0 })
      [] [] 0 { pe := some 20, de := some 40, sector := some "IT" }).isSome = true
    ∧ (calculate_score "TCS" 250 0 90
      (some { rsi := PyFloat.val 60, ema20 := PyFloat.val 90,
              ema50 := PyFloat.val 80, ema200 := PyFloat.val 70,
              atr := PyFloat.val 3 })
      [] [] 0 { pe := some 20, de := some 40, sector := some "IT" }).isSome = true := by
  refine ⟨?_, ?_, ?_⟩ <;> norm_num [calculate_score, MIN_BARS_REQUIRED]

/-- Claim C5 as amended: the Strategy-stage `calculate_score` returns None
exactly when the price series is shorter than MIN_BARS_REQUIRED or the
indicator block raises (undefined indicators); non-finite or non-positive
indicator values do not produce None, and neither does a zero last price
(numpy float division yields a non-finite volatility, not an exception). -/
theorem c5_score_none_characterization (symbol : String) (nBars : ℕ)
    (price close10 : ℚ) (ind : Option Indicators)
    (avg_delivery : List (String × ℚ)) (sector_map : List (String × ℤ))
    (nifty_perf : ℚ) (fund : Fundamentals) :
    calculate_score symbol nBars price close10 ind avg_delivery sector_map
        nifty_perf fund = none
      ↔ (nBars < MIN_BARS_REQUIRED ∨ ind = none) := by
  unfold calculate_score
  by_cases h1 : nBars < MIN_BARS_REQUIRED
  · simp [h1]
  · cases ind with
    | none => simp [h1]
    | some i => simp [h1]

theorem technicalScore_le (price : ℚ) (e20 e50 e200 rsi : PyFloat) :
    technicalScore price e20 e50 e200 rsi ≤ 100 := by
  unfold technicalScore
  split_ifs <;> omega

theorem alphaScore_le (alpha_bps : ℚ) : alphaScore alpha_bps ≤ 100 := by
  unfold alphaScore
  split_ifs <;> omega

theorem fundamentalScore_le (pe : ℚ) : fundamentalScore pe ≤ 100 := by
  unfold fundamentalScore
  split_ifs <;> omega

theorem solvencyScore_le (de : ℚ) : solvencyScore de ≤ 100 := by
  unfold solvencyScore
  split_ifs <;> omega

theorem betaScore_le (volatility : PyFloat) : betaScore volatility ≤ 100 := by
  unfold betaScore
  split_ifs <;> omega

theorem deliveryScore_bounds (delv : ℚ) (h : 0 ≤ delv) :
    0 ≤ deliveryScore delv ∧ deliveryScore delv ≤ 100 := by
  unfold deliveryScore
  refine ⟨le_min (by norm_num) (pyInt_nonneg _ (by positivity)), min_le_left _ _⟩

theorem mem_of_lookup_some (l : List (String × ℤ)) (k : String) (v : ℤ)
    (h : l.lookup k = some v) : (k, v) ∈ l := by
  rcases List.lookup_eq_some_iff.mp h with ⟨l₁, l₂, hl, hfirst⟩
  rw [hl]
  exact List.mem_append_right l₁ (List.mem_cons_self _ _)

theorem sector_lookup_bounds (sector_map : List (String × ℤ)) (sec : String)
    (h : ∀ kv ∈ sector_map, 0 ≤ kv.2 ∧ kv.2 ≤ 100) :
    0 ≤ (sector_map.lookup sec).getD 50 ∧ (sector_map.lookup sec).getD 50 ≤ 100 := by
  cases hl : sector_map.lookup sec with
  | none => norm_num
  | some v =>
    have hv := h (sec, v) (mem_of_lookup_some sector_map sec v hl)
    simpa using hv

theorem compositeBlend_bounds (t : ℕ) (d s : ℤ) (a f solv b : ℕ)
    (ht : t ≤ 100) (hd0 : 0 ≤ d) (hd : d ≤ 100) (hs0 : 0 ≤ s) (hs : s ≤ 100)
    (ha : a ≤ 100) (hf : f ≤ 100) (hsolv : solv ≤ 100) (hb : b ≤ 100) :
    0 ≤ compositeBlend t d s a f solv b ∧ compositeBlend t d s a f solv b ≤ 100 := by
  unfold compositeBlend
  have ht1 : (t:ℚ) ≤ 100 := by exact_mod_cast ht
  have hd1 : (d:ℚ) ≤ 100 := by exact_mod_cast hd
  have hd2 : (0:ℚ) ≤ (d:ℚ) := by exact_mod_cast hd0
  have hs1 : (s:ℚ) ≤ 100 := by exact_mod_cast hs
  have hs2 : (0:ℚ) ≤ (s:ℚ) := by exact_mod_cast hs0
  have ha1 : (a:ℚ) ≤ 100 := by exact_mod_cast ha
  have hf1 : (f:ℚ) ≤ 100 := by exact_mod_cast hf
  have hsolv1 : (solv:ℚ) ≤ 100 := by exact_mod_cast hsolv
  have hb1 : (b:ℚ) ≤ 100 := by exact_mod_cast hb
  have ht2 : (0:ℚ) ≤ (t:ℚ) := by positivity
  have ha2 : (0:ℚ) ≤ (a:ℚ) := by positivity
  have hf2 : (0:ℚ) ≤ (f:ℚ) := by positivity
  have hsolv2 : (0:ℚ) ≤ (solv:ℚ) := by positivity
  have hb2 : (0:ℚ) ≤ (b:ℚ) := by positivity
  constructor
  · linarith
  · linarith

/-- Claim C6: for valid inputs (enough bars, indicator block computed, a
nonzero last price, a non-negative delivery percentage and sector-map
values in [0,100]) the composite score is an integer in [0,100]: every
sub-score is bounded by 100 (and non-negative), and the weights
0.25+0.20+0.15+0.15+0.10+0.10+0.05 sum to 1, so the truncated blend stays
in the bound. -/
theorem c6_composite_score_bounded (symbol : String) (nBars : ℕ)
    (price close10 : ℚ) (i : Indicators) (avg_delivery : List (String × ℚ))
    (sector_map : List (String × ℤ)) (nifty_perf : ℚ) (fund : Fundamentals)
    (hbars : MIN_BARS_REQUIRED ≤ nBars) (hprice : price ≠ 0)
    (hdel : 0 ≤ (avg_delivery.lookup symbol).getD 30)
    (hsec : ∀ kv ∈ sector_map, 0 ≤ kv.2 ∧ kv.2 ≤ 100) :
    ((25:ℚ)/100 + 20/100 + 15/100 + 15/100 + 10/100 + 10/100 + 5/100 = 1)
    ∧ ∃ c : Candidate,
      calculate_score symbol nBars price close10 (some i) avg_delivery
          sector_map nifty_perf fund = some c
      ∧ 0 ≤ c.score ∧ c.score ≤ 100 := by
  have _hp := hprice
  have hnlt : ¬ nBars < MIN_BARS_REQUIRED := not_lt.mpr hbars
  have hts := technicalScore_le price i.ema20 i.ema50 i.ema200 i.rsi
  have hds := deliveryScore_bounds ((avg_delivery.lookup symbol).getD 30) hdel
  have hss := sector_lookup_bounds sector_map (fund.sector.getD "Unknown") hsec
  have has := alphaScore_le (((price - close10) / close10 - nifty_perf) * 10000)
  have hfs := fundamentalScore_le (fund.pe.getD 0)
  have hsolvs := solvencyScore_le (fund.de.getD 0)
  have hbs := betaScore_le (pyDivP i.atr (PyFloat.val price))
  have hblend := compositeBlend_bounds _ _ _ _ _ _ _ hts hds.1 hds.2 hss.1 hss.2
    has hfs hsolvs hbs
  refine ⟨by norm_num, ?_⟩
  simp only [calculate_score, if_neg hnlt]
  exact ⟨_, rfl, pyInt_nonneg _ hblend.1, pyInt_le_of_le _ 100 hblend.1
    (by exact_mod_cast hblend.2)⟩

/-- Witness for C6 at a concrete valid input. -/
theorem c6_composite_score_bounded_witness :
    ((25:ℚ)/100 + 20/100 + 15/100 + 15/100 + 10/100 + 10/100 + 5/100 = 1)
    ∧ ∃ c : Candidate,
      calculate_score "RELIANCE" 250 100 90
          (some { rsi := PyFloat.val 60, ema20 := PyFloat.val 95,
                  ema50 := PyFloat.val 90, ema200 := PyFloat.val 85,
                  atr := PyFloat.val 3 })
          [("RELIANCE", 55)] [("Energy", 80)] 0
          { pe := some 25, de := some 40, sector := some "Energy" } = some c
      ∧ 0 ≤ c.score ∧ c.score ≤ 100 :=
  c6_composite_score_bounded "RELIANCE" 250 100 90
    { rsi := PyFloat.val 60, ema20 := PyFloat.val 95, ema50 := PyFloat.val 90,
      ema200 := PyFloat.val 85, atr := PyFloat.val 3 }
    [("RELIANCE", 55)] [("Energy", 80)] 0
    { pe := some 25, de := some 40, sector := some "Energy" }
    (by norm_num [MIN_BARS_REQUIRED]) (by norm_num)
    (by simp [List.lookup])
    (by intro kv hkv; simp at hkv; simp [hkv])

/-- Claim C9: a contract candidate whose freshly fetched live price is
below its 50-period moving average is rejected by `refine_trade` no matter
its score, so it contributes neither an executable setup (the notification
output) nor a sheet row: removing its loop iteration leaves the outputs
unchanged. -/
theorem c9_below_ema50_rejected (d : LiveData) (e : ℚ)
    (hema : d.ema50 = PyFloat.val e) (hbelow : d.close < e) :
    refine_trade d = none
    ∧ (∀ today run_id protocol u,
        processEntry today run_id protocol u (some d) = none)
    ∧ (∀ today run_id protocol pre post u,
        buildOutputs today run_id protocol (pre ++ (u, some d) :: post)
          = buildOutputs today run_id protocol (pre ++ post)) := by
  have hrt : refine_trade d = none := by
    unfold refine_trade
    by_cases h1 : d.nBars < EXEC_MIN_BARS_REQUIRED
    · simp [h1]
    · by_cases h2 : d.indFails
      · simp [h1, h2]
      · cases ha : d.atr with
        | nan => simp [h1, h2]
        | val a =>
          by_cases h3 : a ≤ 0
          · simp [h1, h2, h3]
          · have hlt : pyLt (PyFloat.val d.close) d.ema50 = true := by
              rw [hema]
              simpa [pyLt] using hbelow
            simp [h1, h2, h3, hlt]
  have hpe : ∀ today run_id protocol u,
      processEntry today run_id protocol u (some d) = none := by
    intro today run_id protocol u
    simp [processEntry, hrt]
  refine ⟨hrt, hpe, fun today run_id protocol pre post u => ?_⟩
  unfold buildOutputs
  rw [List.filterMap_append, List.filterMap_append]
  congr 1
  simp only [List.filterMap_cons, hpe today run_id protocol u]

/-- Witness for C9: a high-scoring candidate with live price 95 below its
50-period average 100 produces no output at all. -/
theorem c9_below_ema50_rejected_witness :
    (95:ℚ) < 100
    ∧ refine_trade { nBars := 250, close := 95, indFails := false,
                     ema50 := PyFloat.val 100, atr := PyFloat.val 2 } = none
    ∧ buildOutputs "2026-01-05" "20260105_0930" "NORMAL_SIZE_100"
        [({ symbol := some "TOPSCORE", score := some 99,
             sector := some "IT", del_pct := some 50 },
          some { nBars := 250, close := 95, indFails := false,
                 ema50 := PyFloat.val 100, atr := PyFloat.val 2 })] = [] :=
  ⟨by norm_num,
   (c9_below_ema50_rejected
      { nBars := 250, close := 95, indFails := false,
        ema50 := PyFloat.val 100, atr := PyFloat.val 2 } 100 rfl (by norm_num)).1,
   (c9_below_ema50_rejected
      { nBars := 250, close := 95, indFails := false,
        ema50 := PyFloat.val 100, atr := PyFloat.val 2 } 100 rfl (by norm_num)).2.2
      "2026-01-05" "20260105_0930" "NORMAL_SIZE_100" [] []
      { symbol := some "TOPSCORE", score := some 99,
        sector := some "IT", del_pct := some 50 }⟩

theorem rhalfeven_bounds (x : ℚ) :
    x - 1/2 ≤ (rhalfeven x : ℚ) ∧ (rhalfeven x : ℚ) ≤ x + 1/2 := by
  have hfl := Int.floor_le x
  have hfu := Int.lt_floor_add_one x
  unfold rhalfeven
  split_ifs with h1 h2 h3 <;> push_cast <;> constructor <;> linarith

theorem floorLog2_correct (x : ℚ) (hx : 0 < x) :
    (2:ℚ) ^ floorLog2 x ≤ x ∧ x < 2 ^ (floorLog2 x + 1) := by
  have hnum : 0 < x.num := Rat.num_pos.mpr hx
  have hden : 0 < (x.den : ℤ) := by exact_mod_cast x.pos
  set a := Nat.log 2 x.num.natAbs with ha
  set b := Nat.log 2 x.den with hb
  have hnum0 : x.num.natAbs ≠ 0 := by
    simpa using (by omega : x.num ≠ 0)
  have hden0 : x.den ≠ 0 := x.den_nz
  have h1 : (2:ℕ) ^ a ≤ x.num.natAbs := Nat.pow_log_le_self 2 hnum0
  have h2 : x.num.natAbs < 2 ^ (a + 1) := Nat.lt_pow_succ_log_self (by norm_num) _
  have h3 : (2:ℕ) ^ b ≤ x.den := Nat.pow_log_le_self 2 hden0
  have h4 : x.den < 2 ^ (b + 1) := Nat.lt_pow_succ_log_self (by norm_num) _
  have hq1 : (2:ℚ) ^ (a:ℤ) ≤ (x.num : ℚ) := by
    rw [zpow_natCast]
    have hc : ((2:ℕ) ^ a : ℚ) ≤ (x.num.natAbs : ℚ) := by exact_mod_cast h1
    rwa [Int.cast_natAbs, abs_of_pos (by exact_mod_cast hnum)] at hc
  have hq2 : (x.num : ℚ) < 2 ^ ((a:ℤ) + 1) := by
    have hc : (x.num.natAbs : ℚ) < ((2:ℕ) ^ (a+1) : ℚ) := by exact_mod_cast h2
    rw [Int.cast_natAbs, abs_of_pos (by exact_mod_cast hnum)] at hc
    calc (x.num : ℚ) < ((2:ℕ) ^ (a+1) : ℚ) := hc
    _ = 2 ^ ((a:ℤ) + 1) := by push_cast [← zpow_natCast]; norm_num
  have hq3 : (2:ℚ) ^ (b:ℤ) ≤ (x.den : ℚ) := by
    rw [zpow_natCast]
    exact_mod_cast h3
  have hq4 : (x.den : ℚ) < 2 ^ ((b:ℤ) + 1) := by
    have hc : (x.den : ℚ) < ((2:ℕ) ^ (b+1) : ℚ) := by exact_mod_cast h4
    calc (x.den : ℚ) < ((2:ℕ) ^ (b+1) : ℚ) := hc
    _ = 2 ^ ((b:ℤ) + 1) := by push_cast [← zpow_natCast]; norm_num
  have hdenq : (0:ℚ) < (x.den : ℚ) := by exact_mod_cast x.pos
  have hxeq : x = (x.num : ℚ) / (x.den : ℚ) := (Rat.num_div_den x).symm
  have hlow : (2:ℚ) ^ ((a:ℤ) - (b:ℤ) - 1) < x := by
    rw [hxeq]
    rw [show (a:ℤ) - (b:ℤ) - 1 = (a:ℤ) - ((b:ℤ)+1) by ring,
      zpow_sub₀ (by norm_num : (2:ℚ) ≠ 0)]
    rw [div_lt_div_iff₀ (zpow_pos (by norm_num) _) hdenq]
    calc (2:ℚ) ^ (a:ℤ) * (x.den:ℚ) < 2 ^ (a:ℤ) * 2 ^ ((b:ℤ)+1) :=
          mul_lt_mul_of_pos_left hq4 (zpow_pos (by norm_num) _)
    _ = 2 ^ ((b:ℤ)+1) * 2 ^ (a:ℤ) := by ring
    _ ≤ (x.num:ℚ) * 2 ^ ((b:ℤ)+1) := by
          rw [mul_comm ((x.num:ℚ))]
          exact mul_le_mul_of_nonneg_left hq1 (le_of_lt (zpow_pos (by norm_num) _))
  have hhigh : x < (2:ℚ) ^ ((a:ℤ) - (b:ℤ) + 1) := by
    rw [hxeq]
    rw [show (a:ℤ) - (b:ℤ) + 1 = ((a:ℤ)+1) - (b:ℤ) by ring,
      zpow_sub₀ (by norm_num : (2:ℚ) ≠ 0)]
    rw [div_lt_div_iff₀ hdenq (zpow_pos (by norm_num) _)]
    calc (x.num:ℚ) * 2 ^ (b:ℤ) ≤ (x.num:ℚ) * (x.den:ℚ) :=
          mul_le_mul_of_nonneg_left hq3 (le_of_lt (by exact_mod_cast hnum))
    _ < 2 ^ ((a:ℤ)+1) * (x.den:ℚ) := mul_lt_mul_of_pos_right hq2 hdenq
  unfold floorLog2
  by_cases hc : (2:ℚ) ^ ((a:ℤ) - (b:ℤ)) ≤ x
  · rw [if_pos (by rw [← ha, ← hb]; exact hc)]
    exact ⟨by rw [← ha, ← hb]; exact hc, by rw [← ha, ← hb]; exact hhigh⟩
  · rw [if_neg (by rw [← ha, ← hb]; exact hc)]
    constructor
    · rw [← ha, ← hb]
      exact le_of_lt hlow
    · rw [← ha, ← hb]
      have hl := not_le.mp hc
      calc x < 2 ^ ((a:ℤ) - (b:ℤ)) := hl
      _ = 2 ^ ((a:ℤ) - (b:ℤ) - 1 + 1) := by ring_nf

theorem floorLog2_eq (x : ℚ) (hx : 0 < x) (L : ℤ)
    (h1 : (2:ℚ) ^ L ≤ x) (h2 : x < 2 ^ (L + 1)) : floorLog2 x = L := by
  rcases floorLog2_correct x hx with ⟨hc1, hc2⟩
  by_contra hne
  rcases lt_or_gt_of_ne hne with hlt | hgt
  · have hle : (2:ℚ) ^ (floorLog2 x + 1) ≤ 2 ^ L :=
      zpow_le_zpow_right₀ (by norm_num) (by omega)
    linarith
  · have hle : (2:ℚ) ^ (L + 1) ≤ 2 ^ floorLog2 x :=
      zpow_le_zpow_right₀ (by norm_num) (by omega)
    linarith

theorem fl_zero : fl 0 = 0 := by
  simp [fl]

theorem fl_eval (x : ℚ) (hx : 0 < x) (L : ℤ)
    (h1 : (2:ℚ) ^ L ≤ x) (h2 : x < 2 ^ (L + 1)) :
    fl x = (rhalfeven (x / 2 ^ (L - 52)) : ℚ) * 2 ^ (L - 52) := by
  rw [fl, if_neg (ne_of_gt hx), abs_of_pos hx, floorLog2_eq x hx L h1 h2,
    if_neg (not_lt.mpr (le_of_lt hx))]
  ring

theorem fl_abs_error (x : ℚ) : |fl x - x| ≤ |x| / 2 ^ 53 := by
  by_cases hx : x = 0
  · simp [hx, fl_zero]
  · have hax : 0 < |x| := abs_pos.mpr hx
    rcases floorLog2_correct |x| hax with ⟨h1, h2⟩
    set L := floorLog2 |x| with hL
    have hep : (0:ℚ) < 2 ^ (L - 52) := zpow_pos (by norm_num) _
    have herr : abs ((rhalfeven (|x| / 2 ^ (L - 52)) : ℚ) - |x| / 2 ^ (L - 52)) ≤ 1/2 := by
      rcases rhalfeven_bounds (|x| / 2 ^ (L - 52)) with ⟨hb1, hb2⟩
      rw [abs_le]
      exact ⟨by linarith, by linarith⟩
    have habs : |fl x - x|
        = abs ((rhalfeven (|x| / 2 ^ (L - 52)) : ℚ) * 2 ^ (L - 52) - |x|) := by
      rw [fl, if_neg hx, ← hL]
      by_cases hneg : x < 0
      · rw [if_pos hneg]
        have hxabs : |x| = -x := abs_of_neg hneg
        have heq : (-1 : ℚ) * (rhalfeven (|x| / 2 ^ (L - 52)) : ℚ) * 2 ^ (L - 52) - x
            = -((rhalfeven (|x| / 2 ^ (L - 52)) : ℚ) * 2 ^ (L - 52) - |x|) := by
          rw [hxabs]
          ring
        rw [heq, abs_neg]
      · rw [if_neg hneg]
        have hxabs : |x| = x := abs_of_nonneg (not_lt.mp hneg)
        rw [hxabs]
        ring_nf
    have hkey : abs ((rhalfeven (|x| / 2 ^ (L - 52)) : ℚ) * 2 ^ (L - 52) - |x|)
        ≤ 2 ^ (L - 52) / 2 := by
      have heq : (rhalfeven (|x| / 2 ^ (L - 52)) : ℚ) * 2 ^ (L - 52) - |x|
          = ((rhalfeven (|x| / 2 ^ (L - 52)) : ℚ) - |x| / 2 ^ (L - 52)) * 2 ^ (L - 52) := by
        field_simp
      rw [heq, abs_mul, abs_of_pos hep]
      calc abs ((rhalfeven (|x| / 2 ^ (L - 52)) : ℚ) - |x| / 2 ^ (L - 52)) * 2 ^ (L - 52)
          ≤ (1/2) * 2 ^ (L - 52) := mul_le_mul_of_nonneg_right herr (le_of_lt hep)
      _ = 2 ^ (L - 52) / 2 := by ring
    have hfin : (2:ℚ) ^ (L - 52) / 2 ≤ |x| / 2 ^ 53 := by
      have e1 : (2:ℚ) ^ (L - 52) / 2 = 2 ^ L / 2 ^ (53:ℕ) := by
        rw [zpow_sub₀ (by norm_num : (2:ℚ) ≠ 0)]
        rw [div_div]
        congr 1
        rw [show ((2:ℚ) ^ (52:ℤ)) = 2 ^ (52:ℕ) from by rw [← zpow_natCast]; norm_num]
        norm_num
      rw [e1]
      gcongr
    rw [habs]
    calc abs ((rhalfeven (|x| / 2 ^ (L - 52)) : ℚ) * 2 ^ (L - 52) - |x|)
        ≤ 2 ^ (L - 52) / 2 := hkey
    _ ≤ |x| / 2 ^ 53 := hfin

theorem fl_close (x B : ℚ) (hB : |x| ≤ B) :
    x - B/2^53 ≤ fl x ∧ fl x ≤ x + B/2^53 := by
  have h := abs_le.mp (fl_abs_error x)
  have hd : |x|/2^53 ≤ B/2^53 := by gcongr
  constructor <;> linarith

theorem fl_one : fl 1 = 1 := by
  rw [fl_eval 1 one_pos 0 (by norm_num) (by norm_num)]
  norm_num [rhalfeven]

theorem fl_hundred : fl 100 = 100 := by
  rw [fl_eval 100 (by norm_num) 6 (by norm_num) (by norm_num)]
  norm_num [rhalfeven]

theorem pyInt_range (x : ℚ) (hlow : (-1:ℚ) < x) (hhigh : x < 101) :
    0 ≤ pyInt x ∧ pyInt x ≤ 100 := by
  unfold pyInt
  by_cases hx : 0 ≤ x
  · rw [if_pos hx]
    constructor
    · exact Int.floor_nonneg.mpr hx
    · have hf : ⌊x⌋ < 101 := Int.floor_lt.mpr (by exact_mod_cast hhigh)
      omega
  · rw [if_neg hx]
    push_neg at hx
    constructor
    · have hc : (-1:ℤ) < ⌈x⌉ := Int.lt_ceil.mpr (by exact_mod_cast hlow)
      omega
    · have hc : ⌈x⌉ ≤ 0 := Int.ceil_le.mpr (by exact_mod_cast le_of_lt hx)
      omega

theorem sectorScoreAt_formula (n i : ℕ) (hn : 1 ≤ n) :
    sectorScoreAt n i = pyInt (fl (fl (1 - fl ((i:ℚ)/(n:ℚ))) * 100)) := by
  unfold sectorScoreAt
  rw [max_eq_left hn]

theorem sectorScoreAt_top (n : ℕ) (hn : 1 ≤ n) : sectorScoreAt n 0 = 100 := by
  unfold sectorScoreAt
  rw [max_eq_left hn]
  norm_num [fl_zero, fl_one, fl_hundred, pyInt]

theorem sectorScoreAt_range (n i : ℕ) (h : i < n) :
    0 ≤ sectorScoreAt n i ∧ sectorScoreAt n i ≤ 100 := by
  have hn : 1 ≤ n := by omega
  rw [sectorScoreAt_formula n i hn]
  have hn0 : (0:ℚ) < (n:ℚ) := by exact_mod_cast (by omega : 0 < n)
  have hq0 : (0:ℚ) ≤ (i:ℚ) / (n:ℚ) := div_nonneg (by positivity) (le_of_lt hn0)
  have hq1 : (i:ℚ) / (n:ℚ) ≤ 1 := by
    rw [div_le_one hn0]
    exact_mod_cast le_of_lt h
  have h1 := fl_close ((i:ℚ) / (n:ℚ)) 1 (by rwa [abs_of_nonneg hq0])
  have hu0 : -(1/2^53 : ℚ) ≤ 1 - fl ((i:ℚ) / (n:ℚ)) := by linarith
  have hu1 : 1 - fl ((i:ℚ) / (n:ℚ)) ≤ 1 + 1/2^53 := by linarith
  have habs_u : |1 - fl ((i:ℚ) / (n:ℚ))| ≤ 2 := by
    rw [abs_le]
    constructor <;> linarith
  have h2 := fl_close (1 - fl ((i:ℚ) / (n:ℚ))) 2 habs_u
  have ht2l : -(3/2^53 : ℚ) ≤ fl (1 - fl ((i:ℚ) / (n:ℚ))) := by linarith
  have ht2h : fl (1 - fl ((i:ℚ) / (n:ℚ))) ≤ 1 + 3/2^53 := by linarith
  have habs_v : |fl (1 - fl ((i:ℚ) / (n:ℚ))) * 100| ≤ 101 := by
    rw [abs_mul]
    have hb : |fl (1 - fl ((i:ℚ) / (n:ℚ)))| ≤ 101/100 := by
      rw [abs_le]
      constructor <;> linarith
    calc |fl (1 - fl ((i:ℚ) / (n:ℚ)))| * |(100:ℚ)|
        = |fl (1 - fl ((i:ℚ) / (n:ℚ)))| * 100 := by norm_num
    _ ≤ (101/100) * 100 := mul_le_mul_of_nonneg_right hb (by norm_num)
    _ = 101 := by norm_num
  have h3 := fl_close (fl (1 - fl ((i:ℚ) / (n:ℚ))) * 100) 101 habs_v
  have hlow : (-1:ℚ) < fl (fl (1 - fl ((i:ℚ) / (n:ℚ))) * 100) := by linarith
  have hhigh : fl (fl (1 - fl ((i:ℚ) / (n:ℚ))) * 100) < 101 := by linarith
  exact pyInt_range _ hlow hhigh

theorem sectorScoreAt_three_one : sectorScoreAt 3 1 = 66 := by
  rw [sectorScoreAt_formula 3 1 (by norm_num)]
  rw [show (((1:ℕ):ℚ)/((3:ℕ):ℚ)) = 1/3 from by norm_num]
  rw [show fl (1/3) = 6004799503160661/18014398509481984 from by
    rw [fl_eval (1/3) (by norm_num) (-2) (by norm_num) (by norm_num)]
    norm_num [rhalfeven]]
  rw [show (1:ℚ) - 6004799503160661/18014398509481984
      = 12009599006321323/18014398509481984 from by norm_num]
  rw [show fl (12009599006321323/18014398509481984)
      = 3002399751580331/4503599627370496 from by
    rw [fl_eval _ (by norm_num) (-1) (by norm_num) (by norm_num)]
    norm_num [rhalfeven]]
  rw [show (3002399751580331/4503599627370496 : ℚ) * 100
      = 75059993789508275/1125899906842624 from by norm_num]
  rw [show fl (75059993789508275/1125899906842624)
      = 4691249611844267/70368744177664 from by
    rw [fl_eval _ (by norm_num) 6 (by norm_num) (by norm_num)]
    norm_num [rhalfeven]]
  norm_num [pyInt]

theorem sectorScoreAt_three_two : sectorScoreAt 3 2 = 33 := by
  rw [sectorScoreAt_formula 3 2 (by norm_num)]
  rw [show (((2:ℕ):ℚ)/((3:ℕ):ℚ)) = 2/3 from by norm_num]
  rw [show fl (2/3) = 6004799503160661/9007199254740992 from by
    rw [fl_eval (2/3) (by norm_num) (-1) (by norm_num) (by norm_num)]
    norm_num [rhalfeven]]
  rw [show (1:ℚ) - 6004799503160661/9007199254740992
      = 3002399751580331/9007199254740992 from by norm_num]
  rw [show fl (3002399751580331/9007199254740992)
      = 3002399751580331/9007199254740992 from by
    rw [fl_eval _ (by norm_num) (-2) (by norm_num) (by norm_num)]
    norm_num [rhalfeven]]
  rw [show (3002399751580331/9007199254740992 : ℚ) * 100
      = 75059993789508275/2251799813685248 from by norm_num]
  rw [show fl (75059993789508275/2251799813685248)
      = 4691249611844267/140737488355328 from by
    rw [fl_eval _ (by norm_num) 5 (by norm_num) (by norm_num)]
    norm_num [rhalfeven]]
  norm_num [pyInt]

theorem sectorScoreAt_five_four : sectorScoreAt 5 4 = 19 := by
  rw [sectorScoreAt_formula 5 4 (by norm_num)]
  rw [show (((4:ℕ):ℚ)/((5:ℕ):ℚ)) = 4/5 from by norm_num]
  rw [show fl (4/5) = 3602879701896397/4503599627370496 from by
    rw [fl_eval (4/5) (by norm_num) (-1) (by norm_num) (by norm_num)]
    norm_num [rhalfeven]]
  rw [show (1:ℚ) - 3602879701896397/4503599627370496
      = 900719925474099/4503599627370496 from by norm_num]
  rw [show fl (900719925474099/4503599627370496)
      = 900719925474099/4503599627370496 from by
    rw [fl_eval _ (by norm_num) (-3) (by norm_num) (by norm_num)]
    norm_num [rhalfeven]]
  rw [show (900719925474099/4503599627370496 : ℚ) * 100
      = 22517998136852475/1125899906842624 from by norm_num]
  rw [show fl (22517998136852475/1125899906842624)
      = 5629499534213119/281474976710656 from by
    rw [fl_eval _ (by norm_num) 4 (by norm_num) (by norm_num)]
    norm_num [rhalfeven]]
  norm_num [pyInt]

/-- Claim C3 counterexample.  With three ranked sectors the rank-1 sector
is assigned 66 where the claimed formula `round((1 - 1/3) * 100)` gives 67:
the code truncates its double-precision value, it does not round.  With
five ranked sectors the rank-4 sector is assigned 19 where the claimed
formula gives `round((1 - 4/5) * 100) = 20` — the double-precision product
`(1 - 4/5) * 100` is 19.999999999999996, so the truncation even falls
below the floor of the exact value, which is 20.  (The top sector does get
exactly 100.) -/
theorem c3_truncation_not_round_counterexample :
    calculate_sector_metrics
      [("A",3),("A",3),("A",3),("A",3),("A",3),
       ("B",2),("B",2),("B",2),("B",2),("B",2),
       ("C",1),("C",1),("C",1),("C",1),("C",1)]
      = [("A",100),("B",66),("C",33)]
    ∧ round ((1 - (1:ℚ)/3) * 100) = 67
    ∧ (66:ℤ) ≠ round ((1 - (1:ℚ)/3) * 100)
    ∧ sectorScoreAt 5 4 = 19
    ∧ round ((1 - (4:ℚ)/5) * 100) = 20
    ∧ ⌊(1 - (4:ℚ)/5) * 100⌋ = 20 := by
  refine ⟨?_, by norm_num [round_eq], by norm_num [round_eq],
    sectorScoreAt_five_four, by norm_num [round_eq], by norm_num⟩
  have hgroup : groupBySector
      [("A",3),("A",3),("A",3),("A",3),("A",3),
       ("B",2),("B",2),("B",2),("B",2),("B",2),
       ("C",1),("C",1),("C",1),("C",1),("C",1)]
      = [("A",[3,3,3,3,3]),("B",[2,2,2,2,2]),("C",[1,1,1,1,1])] := rfl
  have hmedA : pymedian [3,3,3,3,3] = 3 := by
    norm_num [pymedian, List.mergeSort, List.merge]
  have hmedB : pymedian [2,2,2,2,2] = 2 := by
    norm_num [pymedian, List.mergeSort, List.merge]
  have hmedC : pymedian [1,1,1,1,1] = 1 := by
    norm_num [pymedian, List.mergeSort, List.merge]
  have hmed : List.filterMap
      (fun kv => if MIN_SECTOR_SIZE ≤ kv.2.length
        then some (kv.1, pymedian kv.2) else none)
      [("A",[3,3,3,3,3]),("B",[2,2,2,2,2]),("C",[1,1,1,1,1])]
      = [("A",(3:ℚ)),("B",2),("C",1)] := by
    norm_num [List.filterMap, MIN_SECTOR_SIZE, hmedA, hmedB, hmedC]
  have hsort : ([("A",(3:ℚ)),("B",2),("C",1)]).mergeSort
      (fun a b => decide (b.2 ≤ a.2)) = [("A",(3:ℚ)),("B",2),("C",1)] := by
    norm_num [List.mergeSort, List.merge]
  have hs0 : sectorScoreAt 3 0 = 100 := sectorScoreAt_top 3 (by norm_num)
  simp only [calculate_sector_metrics]
  rw [hgroup, hmed, hsort]
  simp [List.enum, List.enumFrom, hs0, sectorScoreAt_three_one,
    sectorScoreAt_three_two]

/-- Claim C3 as amended: when `n ≥ 1` sectors survive the breadth filter,
the sector at descending-median rank index `i` is assigned
`int((1 - i/n) * 100)` evaluated in double-precision float arithmetic
(each operation rounded to the nearest binary64 value, then truncated),
which is always an integer in [0, 100]; the top-ranked sector is assigned
exactly 100.  The result is not `round` of the exact value and can even
fall below its floor. -/
theorem c3_sector_rank_scores (stock_data : List (String × ℚ)) (i : ℕ)
    (h : i < (calculate_sector_metrics stock_data).length) :
    ((calculate_sector_metrics stock_data).getD i ("", 0)).2
      = pyInt (fl (fl (1 - fl
          ((i:ℚ) / ((calculate_sector_metrics stock_data).length : ℚ))) * 100))
    ∧ 0 ≤ ((calculate_sector_metrics stock_data).getD i ("", 0)).2
    ∧ ((calculate_sector_metrics stock_data).getD i ("", 0)).2 ≤ 100
    ∧ (i = 0 → ((calculate_sector_metrics stock_data).getD i ("", 0)).2 = 100) := by
  by_cases hm : ((groupBySector stock_data).filterMap
      (fun kv => if MIN_SECTOR_SIZE ≤ kv.2.length
        then some (kv.1, pymedian kv.2) else none)).isEmpty = true
  · rw [calculate_sector_metrics] at h
    simp only [hm, if_pos] at h
    simp at h
  · have hscores : calculate_sector_metrics stock_data
        = (((groupBySector stock_data).filterMap
            (fun kv => if MIN_SECTOR_SIZE ≤ kv.2.length
              then some (kv.1, pymedian kv.2) else none)).mergeSort
                (fun a b => decide (b.2 ≤ a.2))).enum.map
          (fun iv => (iv.2.1, sectorScoreAt
            (((groupBySector stock_data).filterMap
              (fun kv => if MIN_SECTOR_SIZE ≤ kv.2.length
                then some (kv.1, pymedian kv.2) else none)).mergeSort
                  (fun a b => decide (b.2 ≤ a.2))).length iv.1)) := by
      rw [calculate_sector_metrics]
      simp only [hm, if_neg, Bool.false_eq_true, not_false_iff]
    rw [hscores] at h ⊢
    have hlen : ((((groupBySector stock_data).filterMap
        (fun kv => if MIN_SECTOR_SIZE ≤ kv.2.length
          then some (kv.1, pymedian kv.2) else none)).mergeSort
            (fun a b => decide (b.2 ≤ a.2))).enum.map
          (fun iv => (iv.2.1, sectorScoreAt
            (((groupBySector stock_data).filterMap
              (fun kv => if MIN_SECTOR_SIZE ≤ kv.2.length
                then some (kv.1, pymedian kv.2) else none)).mergeSort
                  (fun a b => decide (b.2 ≤ a.2))).length iv.1))).length
        = (((groupBySector stock_data).filterMap
            (fun kv => if MIN_SECTOR_SIZE ≤ kv.2.length
              then some (kv.1, pymedian kv.2) else none)).mergeSort
                (fun a b => decide (b.2 ≤ a.2))).length := by
      rw [List.length_map, List.enum_length]
    have hi : i < (((groupBySector stock_data).filterMap
        (fun kv => if MIN_SECTOR_SIZE ≤ kv.2.length
          then some (kv.1, pymedian kv.2) else none)).mergeSort
            (fun a b => decide (b.2 ≤ a.2))).length := by
      rw [hlen] at h
      exact h
    have hn1 : 1 ≤ (((groupBySector stock_data).filterMap
        (fun kv => if MIN_SECTOR_SIZE ≤ kv.2.length
          then some (kv.1, pymedian kv.2) else none)).mergeSort
            (fun a b => decide (b.2 ≤ a.2))).length := by omega
    rw [List.getD_eq_getElem?_getD, List.getElem?_eq_getElem h, hlen]
    rw [List.getElem_map, List.getElem_enum]
    refine ⟨?_, ?_, ?_, ?_⟩
    · simpa using sectorScoreAt_formula _ i hn1
    · simpa using (sectorScoreAt_range _ i hi).1
    · simpa using (sectorScoreAt_range _ i hi).2
    · intro hzero
      subst hzero
      simpa using sectorScoreAt_top _ hn1

/-- Witness for C3 (amended): with a single ranked sector the rank-0 score
is exactly 100. -/
theorem c3_sector_rank_scores_witness :
    0 < (calculate_sector_metrics
      [("IT",1),("IT",1),("IT",1),("IT",1),("IT",1)]).length
    ∧ ((calculate_sector_metrics
      [("IT",1),("IT",1),("IT",1),("IT",1),("IT",1)]).getD 0 ("", 0)).2 = 100 := by
  have hval : calculate_sector_metrics
      [("IT",1),("IT",1),("IT",1),("IT",1),("IT",1)] = [("IT", 100)] := by
    have hgroup : groupBySector [("IT",(1:ℚ)),("IT",1),("IT",1),("IT",1),("IT",1)]
        = [("IT",[1,1,1,1,1])] := rfl
    have hmedI : pymedian [1,1,1,1,1] = 1 := by
      norm_num [pymedian, List.mergeSort, List.merge]
    have hmed : List.filterMap
        (fun kv => if MIN_SECTOR_SIZE ≤ kv.2.length
          then some (kv.1, pymedian kv.2) else none)
        [("IT",[1,1,1,1,1])] = [("IT",(1:ℚ))] := by
      norm_num [List.filterMap, MIN_SECTOR_SIZE, hmedI]
    have hsort : ([("IT",(1:ℚ))]).mergeSort (fun a b => decide (b.2 ≤ a.2))
        = [("IT",(1:ℚ))] := by
      norm_num [List.mergeSort]
    have hs0 : sectorScoreAt 1 0 = 100 := sectorScoreAt_top 1 (by norm_num)
    simp only [calculate_sector_metrics]
    rw [hgroup, hmed, hsort]
    simp [List.enum, List.enumFrom, hs0]
  refine ⟨by rw [hval]; norm_num, ?_⟩
  exact (c3_sector_rank_scores [("IT",1),("IT",1),("IT",1),("IT",1),("IT",1)] 0
    (by rw [hval]; norm_num)).2.2.2 rfl

/-- Witness for C5 (amended) at a concrete short series: 50 bars with all
indicators defined still yields None, via the characterization. -/
theorem c5_score_none_characterization_witness :
    calculate_score "INFY" 50 100 90
      (some { rsi := PyFloat.val 60, ema20 := PyFloat.val 95,
              ema50 := PyFloat.val 90, ema200 := PyFloat.val 85,
              atr := PyFloat.val 3 })
      [] [] 0 { pe := some 25, de := some 40, sector := some "IT" } = none :=
  (c5_score_none_characterization "INFY" 50 100 90
    (some { rsi := PyFloat.val 60, ema20 := PyFloat.val 95,
            ema50 := PyFloat.val 90, ema200 := PyFloat.val 85,
            atr := PyFloat.val 3 })
    [] [] 0 { pe := some 25, de := some 40, sector := some "IT" }).mpr
    (Or.inl (by norm_num [MIN_BARS_REQUIRED]))

/-- Witness for C10 at a concrete empty contract with no protocol and no
recommendation. -/
theorem c10_load_signal_total_witness :
    ∃ u, load_signal (SignalFile.parsed
        { meta := { protocol := none, recommendation := none, kill_switch := false },
          univ := [] })
      = some { protocol := resolveProtocol
                 { protocol := none, recommendation := none, kill_switch := false },
               kill_switch := false, univ := u }
      ∧ u.Perm ((([] : List UEntry)).filter hasRequiredKeys)
      ∧ List.Sorted (fun a b => uscore b ≤ uscore a) u
      ∧ ∀ e ∈ u, hasRequiredKeys e = true :=
  c10_load_signal_total.2.2.2.1
    { meta := { protocol := none, recommendation := none, kill_switch := false },
      univ := [] }
